import Mathlib

/-!
Verification of the search-server repository (src/server.go) against its
natural-language specification.

The Go source is shallowly embedded: pure functions become Lean functions,
Go slices are modelled with explicit capacity (a slice expression beyond the
length but within capacity is legal in Go and yields zero-valued elements,
while one beyond the capacity panics), Go int values become Lean Int, and a
panic is modelled as Option.none.  Go byte strings are modelled as Lean
strings (all data in the claims is ASCII, where byte-wise and character-wise
substring and ordering coincide).
-/

namespace SearchSrv

/-- Contiguous-occurrence check on character lists: the needle is a prefix of
some suffix of the haystack. -/
def listContains (hay needle : List Char) : Bool :=
  needle.isPrefixOf hay ||
    match hay with
    | [] => false
    | _ :: t => listContains t needle

/-- Go strings.Contains(s, substr): substr occurs contiguously in s
(the empty string is contained in every string). -/
def goContains (s sub : String) : Bool :=
  listContains s.data sub.data

/-- Zero value of the Go int64 range upper bound. -/
def int64Max : Int := 9223372036854775807

/-- Lower bound of the Go int64 range. -/
def int64Min : Int := -9223372036854775808

/-- Go strconv.Quote for the error message of strconv.Atoi, restricted to the
plain ASCII arguments that occur in this development: the argument is wrapped
in double quotes, with backslash and double quote escaped. -/
def goQuote (s : String) : String :=
  "\"" ++ String.join (s.data.map (fun c =>
    if c = '\\' then "\\\\"
    else if c = '\"' then "\\\""
    else String.mk [c])) ++ "\""

/-- Digits-only parse of a full character list, accumulating left to right
exactly like the loop in Go strconv.Atoi. -/
def parseDigitsAcc (acc : Nat) : List Char → Option Nat
  | [] => some acc
  | c :: cs => if c.isDigit then parseDigitsAcc (acc * 10 + (c.toNat - 48)) cs else none

/-- Go strconv.Atoi: optional leading sign followed by at least one decimal
digit; anything else is a syntax error.  Values outside the int64 range give
a range error (unreachable for the inputs in this development). -/
def goAtoi (s : String) : Except String Int :=
  let syntaxErr : Except String Int :=
    Except.error ("strconv.Atoi: parsing " ++ goQuote s ++ ": invalid syntax")
  let rangeErr : Except String Int :=
    Except.error ("strconv.Atoi: parsing " ++ goQuote s ++ ": value out of range")
  match s.data with
  | [] => syntaxErr
  | c :: rest =>
    let (neg, digits) :=
      if c = '-' then (true, rest)
      else if c = '+' then (false, rest)
      else (false, c :: rest)
    match digits with
    | [] => syntaxErr
    | _ =>
      match parseDigitsAcc 0 digits with
      | none => syntaxErr
      | some n =>
        let v : Int := if neg then -(n : Int) else (n : Int)
        if v < int64Min ∨ int64Max < v then rangeErr else Except.ok v

/-- Row structure parsed from the XML data source (struct row in server.go). -/
structure row where
  ID : Int
  FirstName : String
  LastName : String
  Age : Int
  About : String
  Gender : String
deriving DecidableEq, Repr

/-- Parsed XML document (struct xmlData in server.go). -/
structure xmlData where
  Rows : List row
deriving DecidableEq, Repr

/-- User record returned by the server.  The struct lives in the client file
that is absent from src/, but its construction with fields ID, Name, Age,
About and Gender is fully visible in filterData in server.go, and the spec
gives the same field set. -/
structure User where
  ID : Int
  Name : String
  Age : Int
  About : String
  Gender : String
deriving DecidableEq, Repr

/-- Zero value of the User struct (Go zero value: empty strings, zero ints). -/
def zeroUser : User := ⟨0, "", 0, "", ""⟩

/-- Modelled from the spec: the sort direction constants are declared in the
client source file absent from src/.  The spec fixes order_by to the integers
-1, 0, 1 with a direction enum ascending / descending / as-is; following the
upstream convention the values are OrderByAsc = -1, OrderByAsIs = 0,
OrderByDesc = 1.  No claim in this development depends on the literal values,
only on the constants being pairwise distinct. -/
def OrderByAsc : Int := -1

/-- Modelled from the spec: the as-is sort direction constant (see OrderByAsc). -/
def OrderByAsIs : Int := 0

/-- Modelled from the spec: the descending sort direction constant
(see OrderByAsc). -/
def OrderByDesc : Int := 1

/-- Query parameter DTO (struct queryDTO in server.go). -/
structure queryDTO where
  query : String
  orderField : String
  orderBy : Int
  offset : Int
  limit : Int
deriving DecidableEq, Repr

/-- Raw query parameters as url.Values.Get returns them: the empty string
stands for an absent parameter. -/
structure RawQuery where
  query : String
  order_field : String
  order_by : String
  offset : String
  limit : String
deriving DecidableEq, Repr

/-- parseParams from server.go: query and order_field are copied verbatim;
order_by, offset and limit are each parsed with strconv.Atoi into the single
shared err variable, the field being reset to 0 on failure; the function
returns the final value of err, which is the result of the limit parse. -/
def parseParams (raw : RawQuery) : queryDTO × Option String :=
  let query := raw.query
  let orderField := raw.order_field
  let (orderBy, _err) :=
    match goAtoi raw.order_by with
    | Except.ok v => (v, (none : Option String))
    | Except.error e => (0, some e)
  let (offset, _err) :=
    match goAtoi raw.offset with
    | Except.ok v => (v, (none : Option String))
    | Except.error e => (0, some e)
  let (limit, err) :=
    match goAtoi raw.limit with
    | Except.ok v => (v, (none : Option String))
    | Except.error e => (0, some e)
  (⟨query, orderField, orderBy, offset, limit⟩, err)

/-- isRowMatching from server.go: the query is a substring of FirstName, of
LastName, or of About. -/
def isRowMatching (r : row) (query : String) : Bool :=
  goContains r.FirstName query ||
  goContains r.LastName query ||
  goContains r.About query

/-- Construction of a User from a row, inlined in filterData in server.go:
the Name field concatenates first name, a space, and last name. -/
def mkUser (r : row) : User :=
  ⟨r.ID, r.FirstName ++ " " ++ r.LastName, r.Age, r.About, r.Gender⟩

/-- Go slice with explicit capacity: elems is the visible portion (length),
spare the region between the length and the capacity of the backing array.
For an append-grown slice the spare region holds zero values, because Go
zeroes freshly allocated memory for pointer-containing element types. -/
structure GoSlice where
  elems : List User
  spare : List User
deriving DecidableEq, Repr

/-- Capacity of a modelled Go slice. -/
def GoSlice.cap (s : GoSlice) : Nat := s.elems.length + s.spare.length

/-- The empty Go slice literal ([]User literal or make with length 0):
length 0, capacity 0. -/
def GoSlice.empty : GoSlice := ⟨[], []⟩

/-- Go append of one element: consume a spare slot if the capacity allows,
otherwise grow the backing array.  The growth factor is the doubling rule Go
uses for small slices; for the 64-byte User element the byte sizes are exact
allocation size classes, so the runtime size-class rounding is the identity. -/
def goAppend (s : GoSlice) (u : User) : GoSlice :=
  match s.spare with
  | _ :: rest => ⟨s.elems ++ [u], rest⟩
  | [] =>
    let newcap := if s.elems.length = 0 then 1 else 2 * s.elems.length
    ⟨s.elems ++ [u], List.replicate (newcap - (s.elems.length + 1)) zeroUser⟩

/-- filterData from server.go: iterate over the rows, skip a row when the
query is nonempty and the row does not match, and append the constructed
User to a result slice that started as make with length 0. -/
def filterData (data : xmlData) (query : String) : GoSlice :=
  data.Rows.foldl
    (fun acc r =>
      if query ≠ "" ∧ ¬ isRowMatching r query then acc
      else goAppend acc (mkUser r))
    GoSlice.empty

/-- paginateData from server.go.  The offset step drops the first offset
elements when 0 < offset < len and replaces the slice by the empty slice
literal (capacity 0) when offset ≥ len.  The limit step executes only when
limit - 1 > 0 and is the Go slice expression data[:limit], which extends into
the spare region when len < limit ≤ cap and panics (modelled as none) when
limit exceeds the capacity. -/
def paginateData (data : GoSlice) (offset limit : Int) : Option GoSlice :=
  let d1 : GoSlice :=
    if 0 < offset then
      if offset < (data.elems.length : Int) then
        ⟨data.elems.drop offset.toNat, data.spare⟩
      else GoSlice.empty
    else data
  if 0 < limit - 1 then
    if limit ≤ (d1.cap : Int) then
      some ⟨(d1.elems ++ d1.spare).take limit.toNat, (d1.elems ++ d1.spare).drop limit.toNat⟩
    else none
  else some d1

/-!
Model of Go sort.Slice, which since Go 1.19 is the pattern-defeating
quicksort of the sort package (pdqsort_func and its helpers).  Indices are
Go ints, modelled as Int; loops are fuel-based with fuel amounts that are
provably sufficient bounds for the corresponding Go loops; data.Less(i, j)
reads the current, possibly already permuted, backing array, so the
comparator receives the current list.
-/

/-- Indexed read of the backing array, Go zero value out of range
(out-of-range reads do not occur in reachable states). -/
def uget (l : List User) (i : Int) : User := l.getD i.toNat zeroUser

/-- data.Swap(i, j) on the backing array. -/
def uswap (l : List User) (i j : Int) : List User :=
  (l.set i.toNat (uget l j)).set j.toNat (uget l i)

/-- Type of the less closure passed to sort.Slice: it reads the current
backing array at two indices. -/
abbrev LessF := List User → Int → Int → Bool

/-- Inner loop of insertionSort_func: move element j left while it is less
than its predecessor and j > a. -/
def insInner (less : LessF) : Nat → List User → Int → Int → List User
  | 0, l, _, _ => l
  | fuel+1, l, a, j =>
    if a < j ∧ less l j (j-1) then insInner less fuel (uswap l j (j-1)) a (j-1) else l

/-- Outer loop of insertionSort_func over i from a+1 to b-1. -/
def insLoop (less : LessF) : Nat → List User → Int → Int → Int → List User
  | 0, l, _, _, _ => l
  | fuel+1, l, a, b, i =>
    if i < b then insLoop less fuel (insInner less ((i - a).toNat + 1) l a i) a b (i+1)
    else l

/-- insertionSort_func from the Go sort package. -/
def insertionSortGo (less : LessF) (l : List User) (a b : Int) : List User :=
  insLoop less ((b - a).toNat + 1) l a b (a+1)

/-- siftDown_func from the Go sort package. -/
def siftDownGo (less : LessF) : Nat → List User → Int → Int → Int → List User
  | 0, l, _, _, _ => l
  | fuel+1, l, root, hi, first =>
    let child := 2*root + 1
    if child ≥ hi then l
    else
      let child := if child + 1 < hi ∧ less l (first+child) (first+child+1) then child+1 else child
      if ¬ less l (first+root) (first+child) then l
      else siftDownGo less fuel (uswap l (first+root) (first+child)) child hi first

/-- Heap construction loop of heapSort_func (i descending to 0). -/
def heapBuild (less : LessF) : Nat → List User → Int → Int → Int → List User
  | 0, l, _, _, _ => l
  | fuel+1, l, i, hi, first =>
    if i ≥ 0 then heapBuild less fuel (siftDownGo less (hi.toNat+1) l i hi first) (i-1) hi first
    else l

/-- Pop loop of heapSort_func (i descending from hi-1 to 0). -/
def heapPop (less : LessF) : Nat → List User → Int → Int → List User
  | 0, l, _, _ => l
  | fuel+1, l, i, first =>
    if i ≥ 0 then
      heapPop less fuel (siftDownGo less (i.toNat+1) (uswap l first (first+i)) 0 i first) (i-1) first
    else l

/-- heapSort_func from the Go sort package (Int division on nonnegative
operands agrees with the Go truncating division). -/
def heapSortGo (less : LessF) (l : List User) (a b : Int) : List User :=
  let first := a
  let hi := b - a
  let l1 := heapBuild less (hi.toNat+1) l ((hi-1)/2) hi first
  heapPop less (hi.toNat+1) l1 (hi-1) first

/-- order2 from the Go sort package: return the two indices in order,
counting an inversion in swaps.  The data is not mutated. -/
def order2Go (less : LessF) (l : List User) (a b : Int) (swaps : Nat) : Int × Int × Nat :=
  if less l b a then (b, a, swaps+1) else (a, b, swaps)

/-- median from the Go sort package: index of the median of three, threading
the swaps counter. -/
def medianGo (less : LessF) (l : List User) (a b c : Int) (swaps : Nat) : Int × Nat :=
  let (a1, b1, s1) := order2Go less l a b swaps
  let (b2, _c2, s2) := order2Go less l b1 c s1
  let (_a3, b3, s3) := order2Go less l a1 b2 s2
  (b3, s3)

/-- medianAdjacent from the Go sort package. -/
def medianAdjacentGo (less : LessF) (l : List User) (a : Int) (swaps : Nat) : Int × Nat :=
  medianGo less l (a-1) a (a+1) swaps

/-- Sortedness hint returned by choosePivot. -/
inductive SortHint where
  | increasing
  | decreasing
  | unknown
deriving DecidableEq, Repr

/-- choosePivot from the Go sort package: median (or ninther for length at
least 50) with a swaps counter; 0 recorded inversions hint increasing order,
the maximum 12 hint decreasing order. -/
def choosePivotGo (less : LessF) (l : List User) (a b : Int) : Int × SortHint :=
  let len := b - a
  let i := a + len/4*1
  let j := a + len/4*2
  let k := a + len/4*3
  let (jm, swaps) :=
    if len ≥ 8 then
      if len ≥ 50 then
        let (i1, s1) := medianAdjacentGo less l i 0
        let (j1, s2) := medianAdjacentGo less l j s1
        let (k1, s3) := medianAdjacentGo less l k s2
        medianGo less l i1 j1 k1 s3
      else medianGo less l i j k 0
    else (j, 0)
  (jm, if swaps = 0 then SortHint.increasing
       else if swaps = 12 then SortHint.decreasing
       else SortHint.unknown)

/-- reverseRange_func from the Go sort package (arguments are the two
converging cursors). -/
def reverseRangeGo : Nat → List User → Int → Int → List User
  | 0, l, _, _ => l
  | fuel+1, l, i, j => if i < j then reverseRangeGo fuel (uswap l i j) (i+1) (j-1) else l

/-- Scan loop of partialInsertionSort_func: advance i while the element is
not less than its predecessor; returns the final i. -/
def pisScan (less : LessF) : Nat → List User → Int → Int → Int
  | 0, _, _, i => i
  | fuel+1, l, b, i => if i < b ∧ ¬ less l i (i-1) then pisScan less fuel l b (i+1) else i

/-- Left shift loop of partialInsertionSort_func. -/
def pisShiftLeft (less : LessF) : Nat → List User → Int → List User
  | 0, l, _ => l
  | fuel+1, l, j =>
    if j ≥ 1 ∧ less l j (j-1) then pisShiftLeft less fuel (uswap l j (j-1)) (j-1) else l

/-- Right shift loop of partialInsertionSort_func. -/
def pisShiftRight (less : LessF) : Nat → List User → Int → Int → List User
  | 0, l, _, _ => l
  | fuel+1, l, b, j =>
    if j < b ∧ less l j (j-1) then pisShiftRight less fuel (uswap l j (j-1)) b (j+1) else l

/-- Outer loop of partialInsertionSort_func: at most 5 adjacent out-of-order
pairs are repaired, and nothing is shifted for ranges shorter than 50. -/
def pisLoop (less : LessF) : Nat → List User → Int → Int → Int → Bool × List User
  | 0, l, _, _, _ => (false, l)
  | fuel+1, l, a, b, i =>
    let i2 := pisScan less ((b - i).toNat + 1) l b i
    if i2 = b then (true, l)
    else if b - a < 50 then (false, l)
    else
      let l1 := uswap l i2 (i2-1)
      let l2 := if i2 - a ≥ 2 then pisShiftLeft less (i2.toNat+1) l1 (i2-1) else l1
      let l3 := if b - i2 ≥ 2 then pisShiftRight less ((b-i2).toNat+1) l2 b (i2+1) else l2
      pisLoop less fuel l3 a b i2

/-- partialInsertionSort_func from the Go sort package (maxSteps is 5). -/
def partialInsertionSortGo (less : LessF) (l : List User) (a b : Int) : Bool × List User :=
  pisLoop less 5 l a b (a+1)

/-- One step of the xorshift generator used by breakPatterns (64-bit state,
modelled as Nat reduced modulo 2 to the 64). -/
def xorshiftNext (r : Nat) : Nat :=
  let m := 2^64
  let r1 := (r ^^^ ((r <<< 13) % m)) % m
  let r2 := (r1 ^^^ (r1 >>> 7)) % m
  (r2 ^^^ ((r2 <<< 17) % m)) % m

/-- nextPowerOfTwo from the Go sort package: 1 shifted by bits.Len. -/
def nextPowerOfTwoGo (len : Nat) : Nat := 2 ^ (Nat.size len)

/-- breakPatterns_func from the Go sort package: for ranges of length at
least 8, swap three elements around the prospective pivot position with
pseudo-random ones (the xorshift generator is seeded with the length, so the
function is deterministic). -/
def breakPatternsGo (l : List User) (a b : Int) : List User :=
  let len := b - a
  if len ≥ 8 then
    let modulus : Nat := nextPowerOfTwoGo len.toNat
    let idx := a + (len/4)*2 - 1
    let r1 := xorshiftNext len.toNat
    let r2 := xorshiftNext r1
    let r3 := xorshiftNext r2
    let pick (v : Nat) : Int :=
      let other : Nat := v &&& (modulus - 1)
      if (other : Int) ≥ len then (other : Int) - len else (other : Int)
    let l1 := uswap l (idx - 1 + 0) (a + pick r1)
    let l2 := uswap l1 (idx - 1 + 1) (a + pick r2)
    uswap l2 (idx - 1 + 2) (a + pick r3)
  else l

/-- Scan of partition_func advancing i while data at i is less than the
pivot stored at a. -/
def partScanI (less : LessF) : Nat → List User → Int → Int → Int → Int
  | 0, _, _, _, i => i
  | fuel+1, l, a, j, i => if i ≤ j ∧ less l i a then partScanI less fuel l a j (i+1) else i

/-- Scan of partition_func retreating j while data at j is not less than the
pivot stored at a. -/
def partScanJ (less : LessF) : Nat → List User → Int → Int → Int → Int
  | 0, _, _, _, j => j
  | fuel+1, l, a, i, j => if i ≤ j ∧ ¬ less l j a then partScanJ less fuel l a i (j-1) else j

/-- Main exchange loop of partition_func; returns the final j and the
permuted array. -/
def partLoop (less : LessF) : Nat → List User → Int → Int → Int → Int × List User
  | 0, l, _, _, j => (j, l)
  | fuel+1, l, a, i, j =>
    let i2 := partScanI less ((j - i).toNat + 2) l a j i
    let j2 := partScanJ less ((j - i2).toNat + 2) l a i2 j
    if i2 > j2 then (j2, l)
    else partLoop less fuel (uswap l i2 j2) a (i2+1) (j2-1)

/-- partition_func from the Go sort package: move the pivot to position a,
partition the rest, and report whether the range was already partitioned. -/
def partitionGo (less : LessF) (l : List User) (a b pivot : Int) : Int × Bool × List User :=
  let l0 := uswap l a pivot
  let i0 := a + 1
  let j0 := b - 1
  let i1 := partScanI less ((j0 - i0).toNat + 2) l0 a j0 i0
  let j1 := partScanJ less ((j0 - i1).toNat + 2) l0 a i1 j0
  if i1 > j1 then (j1, true, uswap l0 j1 a)
  else
    let l1 := uswap l0 i1 j1
    let (jf, lf) := partLoop less ((b - a).toNat + 2) l1 a (i1+1) (j1-1)
    (jf, false, uswap lf jf a)

/-- Scan of partitionEqual_func advancing i while data at i is not greater
than the pivot stored at a. -/
def peScanI (less : LessF) : Nat → List User → Int → Int → Int → Int
  | 0, _, _, _, i => i
  | fuel+1, l, a, j, i => if i ≤ j ∧ ¬ less l a i then peScanI less fuel l a j (i+1) else i

/-- Scan of partitionEqual_func retreating j while data at j is greater than
the pivot stored at a. -/
def peScanJ (less : LessF) : Nat → List User → Int → Int → Int → Int
  | 0, _, _, _, j => j
  | fuel+1, l, a, i, j => if i ≤ j ∧ less l a j then peScanJ less fuel l a i (j-1) else j

/-- Exchange loop of partitionEqual_func; returns the final i and the
permuted array. -/
def peLoop (less : LessF) : Nat → List User → Int → Int → Int → Int × List User
  | 0, l, _, _, i => (i, l)
  | fuel+1, l, a, i, j =>
    let i2 := peScanI less ((j - i).toNat + 2) l a j i
    let j2 := peScanJ less ((j - i2).toNat + 2) l a i2 j
    if i2 > j2 then (i2, l)
    else peLoop less fuel (uswap l i2 j2) a (i2+1) (j2-1)

/-- partitionEqual_func from the Go sort package: move elements equal to the
pivot to the front of the range, returning the first index of the strictly
greater part. -/
def partitionEqualGo (less : LessF) (l : List User) (a b pivot : Int) : Int × List User :=
  let l0 := uswap l a pivot
  peLoop less ((b - a).toNat + 2) l0 a (a+1) (b-1)

/-- pdqsort_func from the Go sort package.  The outer for loop is modelled
as recursion with the loop state (a, b, limit, wasBalanced, wasPartitioned)
as arguments; the fuel exceeds the range length, which bounds the combined
loop trips and recursive calls because every trip shrinks the range. -/
def pdqsortRec (less : LessF) : Nat → List User → Int → Int → Int → Bool → Bool → List User
  | 0, l, _, _, _, _, _ => l
  | fuel+1, l, a, b, limit, wasBalanced, wasPartitioned =>
    let length := b - a
    if length ≤ 12 then insertionSortGo less l a b
    else if limit = 0 then heapSortGo less l a b
    else
      let (l, limit) :=
        if ¬ wasBalanced then (breakPatternsGo l a b, limit - 1) else (l, limit)
      let (pivot, hint) := choosePivotGo less l a b
      let (l, pivot, hint) :=
        if hint = SortHint.decreasing then
          (reverseRangeGo ((b - a).toNat + 1) l a (b-1), (b - 1) - (pivot - a), SortHint.increasing)
        else (l, pivot, hint)
      let (sortedEarly, l) :=
        if wasBalanced ∧ wasPartitioned ∧ hint = SortHint.increasing then
          partialInsertionSortGo less l a b
        else (false, l)
      if sortedEarly then l
      else if a > 0 ∧ ¬ less l (a-1) pivot then
        let (mid, l2) := partitionEqualGo less l a b pivot
        pdqsortRec less fuel l2 mid b limit wasBalanced wasPartitioned
      else
        let (mid, alreadyPartitioned, l2) := partitionGo less l a b pivot
        let leftLen := mid - a
        let rightLen := b - mid
        let balanceThreshold := length / 8
        let wasBalanced2 := min leftLen rightLen ≥ balanceThreshold
        if leftLen < rightLen then
          let l3 := pdqsortRec less fuel l2 a mid limit true true
          pdqsortRec less fuel l3 (mid+1) b limit (decide wasBalanced2) alreadyPartitioned
        else
          let l3 := pdqsortRec less fuel l2 (mid+1) b limit true true
          pdqsortRec less fuel l3 a mid limit (decide wasBalanced2) alreadyPartitioned

/-- Fuel-based bit length: number of binary digits of n (the fuel argument
is an upper bound on the number of halvings). -/
def bitsLenAux : Nat → Nat → Nat
  | 0, _ => 0
  | fuel+1, n => if n = 0 then 0 else bitsLenAux fuel (n / 2) + 1

/-- Go math/bits.Len: the number of bits of n, 0 for 0. -/
def goBitsLen (n : Nat) : Nat := bitsLenAux n n

/-- Go sort.Slice: pdqsort over the whole slice with the depth limit
bits.Len of the length. -/
def goSortSlice (less : LessF) (elems : List User) : List User :=
  pdqsortRec less (elems.length + 1) elems 0 (elems.length : Int)
    ((goBitsLen elems.length : Nat) : Int) true true

/-- Comparator of sortData for the name field (the empty field falls through
to the name case): strictly less on Name, conjoined with the direction being
OrderByAsc, exactly as written in server.go. -/
def lessName (orderBy : Int) : LessF :=
  fun l i j => decide ((uget l i).Name < (uget l j).Name) && decide (orderBy = OrderByAsc)

/-- Comparator of sortData for the id field. -/
def lessID (orderBy : Int) : LessF :=
  fun l i j => decide ((uget l i).ID < (uget l j).ID) && decide (orderBy = OrderByAsc)

/-- Comparator of sortData for the age field. -/
def lessAge (orderBy : Int) : LessF :=
  fun l i j => decide ((uget l i).Age < (uget l j).Age) && decide (orderBy = OrderByAsc)

/-- sortData from server.go: select the comparator by orderField (empty
falls through to name, unknown fields give the error with the literal
message), then sort.Slice in place; the spare capacity region beyond the
slice length is untouched. -/
def sortData (data : GoSlice) (orderField : String) (orderBy : Int) :
    Except String GoSlice :=
  match orderField with
  | "" => Except.ok ⟨goSortSlice (lessName orderBy) data.elems, data.spare⟩
  | "name" => Except.ok ⟨goSortSlice (lessName orderBy) data.elems, data.spare⟩
  | "id" => Except.ok ⟨goSortSlice (lessID orderBy) data.elems, data.spare⟩
  | "age" => Except.ok ⟨goSortSlice (lessAge orderBy) data.elems, data.spare⟩
  | _ => Except.error "OrderField invalid"

/-!
Model of the HTTP response writer and of the SearchServer handler.  The
writer records the status code of the first WriteHeader call (Go ignores
later calls) and the sequence of body writes.  Body writes are kept
structured: plain text chunks, and the JSON marshalling of a user slice
(json.Marshal of a User slice cannot fail, so the marshal-error and
write-error branches of sendResponse are unreachable; response headers other
than the status are not tracked).  A reachable panic makes the handler
return none.
-/

/-- One body write. -/
inductive WriteEvent where
  | text (s : String)
  | jsonUsers (us : List User)
deriving DecidableEq, Repr

/-- State of the response writer: status of the first WriteHeader call, and
the body writes in order. -/
structure ResponseState where
  status : Option Nat
  body : List WriteEvent
deriving DecidableEq, Repr

/-- Writer before anything has been written. -/
def ResponseState.empty : ResponseState := ⟨none, []⟩

/-- w.WriteHeader(code): only the first call takes effect. -/
def writeHeaderGo (code : Nat) (w : ResponseState) : ResponseState :=
  if w.status.isSome then w else ⟨some code, w.body⟩

/-- w.Write: an implicit WriteHeader(200) happens if none was sent yet, then
the chunk is appended to the body. -/
def writeEv (e : WriteEvent) (w : ResponseState) : ResponseState :=
  ⟨some (w.status.getD 200), w.body ++ [e]⟩

/-- http.Error(w, msg, code): WriteHeader(code) followed by the message and
a newline. -/
def httpError (msg : String) (code : Nat) (w : ResponseState) : ResponseState :=
  writeEv (WriteEvent.text (msg ++ "\n")) (writeHeaderGo code w)

/-- The JSON error envelope built by string concatenation in SearchServer
(braces written as hex escapes). -/
def jsonErrorBody (msg : String) : String :=
  "\x7b \"Error\": \"" ++ msg ++ "\" \x7d"

/-- sendResponse from server.go on a user slice: marshal and write. -/
def sendResponse (w : ResponseState) (us : List User) : ResponseState :=
  writeEv (WriteEvent.jsonUsers us) w

/-- Pagination followed by sendResponse, the common tail of SearchServer;
none propagates a pagination panic. -/
def paginateAndSend (w : ResponseState) (res : GoSlice) (params : queryDTO) :
    Option ResponseState :=
  match paginateData res params.offset params.limit with
  | none => none
  | some pg => some (sendResponse w pg.elems)

/-- SearchServer from server.go.  The token comparison takes the request
header value; opening, reading and unmarshalling the XML file are collapsed
into the load argument (an error there is reported with status 500).  A
parse error is reported with http.Error and status 500 WITHOUT returning:
processing continues with the partially constructed query.  The sort stage
runs only when orderBy differs from OrderByAsIs; its failure writes the JSON
error envelope with status 400 (ignored if a status was already sent) and
returns.  Pagination and sendResponse finish the request. -/
def SearchServer (accessToken reqToken : String) (load : Except String xmlData)
    (raw : RawQuery) : Option ResponseState :=
  if reqToken ≠ accessToken then
    some (httpError "Invalid AccessToken" 401 ResponseState.empty)
  else
    match load with
    | Except.error e => some (httpError e 500 ResponseState.empty)
    | Except.ok data =>
      let (params, perr) := parseParams raw
      let w1 :=
        match perr with
        | some e => httpError e 500 ResponseState.empty
        | none => ResponseState.empty
      let result := filterData data params.query
      if params.orderBy ≠ OrderByAsIs then
        match sortData result params.orderField params.orderBy with
        | Except.error e =>
          some (writeEv (WriteEvent.text (jsonErrorBody e)) (writeHeaderGo 400 w1))
        | Except.ok sorted => paginateAndSend w1 sorted params
      else paginateAndSend w1 result params

/-- Modelled from the spec: the handler with the sort stage removed, used to
state that a direction of as-is never invokes the sort stage and leaves the
filtered order intact (spec section 3 invariants and section 4.3). -/
def SearchServerNoSort (accessToken reqToken : String) (load : Except String xmlData)
    (raw : RawQuery) : Option ResponseState :=
  if reqToken ≠ accessToken then
    some (httpError "Invalid AccessToken" 401 ResponseState.empty)
  else
    match load with
    | Except.error e => some (httpError e 500 ResponseState.empty)
    | Except.ok data =>
      let (params, perr) := parseParams raw
      let w1 :=
        match perr with
        | some e => httpError e 500 ResponseState.empty
        | none => ResponseState.empty
      paginateAndSend w1 (filterData data params.query) params

/-!
Helper lemmas shared by the claim theorems.
-/

/-- Append adds the element at the end of the visible part of the slice. -/
theorem goAppend_elems (s : GoSlice) (u : User) :
    (goAppend s u).elems = s.elems ++ [u] := by
  cases h : s.spare <;> simp [goAppend, h]

/-- Generalized fold characterization of filterData. -/
theorem filterData_fold (rows : List row) (q : String) (acc : GoSlice) :
    (rows.foldl
      (fun acc r => if q ≠ "" ∧ ¬ isRowMatching r q then acc else goAppend acc (mkUser r))
      acc).elems
      = acc.elems ++ (rows.filter (fun r => decide (q = "") || isRowMatching r q)).map mkUser := by
  induction rows generalizing acc with
  | nil => simp
  | cons r rest ih =>
    rw [List.foldl_cons, List.filter_cons]
    by_cases hc : q ≠ "" ∧ ¬ isRowMatching r q = true
    · have hp : (decide (q = "") || isRowMatching r q) = false := by
        obtain ⟨h1, h2⟩ := hc
        simp [h1, h2]
      rw [if_pos hc, hp, ih]
      simp
    · have hp : (decide (q = "") || isRowMatching r q) = true := by
        by_cases h1 : q = ""
        · simp [h1]
        · push_neg at hc
          simp [hc h1]
      rw [if_neg hc, hp, ih, goAppend_elems]
      simp

/-- The elements produced by the filter stage are exactly the matching rows,
in order, mapped to users. -/
theorem filterData_elems (data : xmlData) (q : String) :
    (filterData data q).elems
      = (data.Rows.filter (fun r => decide (q = "") || isRowMatching r q)).map mkUser := by
  simpa [filterData, GoSlice.empty] using filterData_fold data.Rows q GoSlice.empty

/-- Integer value of a raw parameter with the reset-to-zero failure policy. -/
def atoiOr0 (s : String) : Int :=
  match goAtoi s with
  | Except.ok v => v
  | Except.error _ => 0

/-- Error, if any, of parsing a raw parameter. -/
def atoiErr (s : String) : Option String :=
  match goAtoi s with
  | Except.ok _ => none
  | Except.error e => some e

/-- Full characterization of parseParams: all three integer fields get the
reset-to-zero policy, and the returned error is the result of the LAST parse
(the limit parameter), because the single err variable is overwritten by
each strconv.Atoi call. -/
theorem parseParams_eq (raw : RawQuery) :
    parseParams raw
      = (⟨raw.query, raw.order_field, atoiOr0 raw.order_by, atoiOr0 raw.offset,
          atoiOr0 raw.limit⟩, atoiErr raw.limit) := by
  cases h1 : goAtoi raw.order_by <;> cases h2 : goAtoi raw.offset <;>
    cases h3 : goAtoi raw.limit <;>
    simp [parseParams, atoiOr0, atoiErr, h1, h2, h3]

/-!
Claim C1 — filter stage inclusion test.
-/

/-- Row whose full name contains the query across the space although neither
name part does. -/
def c1row : row := ⟨1, "Ab", "Cd", 30, "", "m"⟩

/-- One-row dataset for the C1 counterexample. -/
def c1data : xmlData := ⟨[c1row]⟩

/-- C1 counterexample: the query is a case-sensitive substring of the full
name (first name, space, last name) of the only record, yet the filter stage
excludes the record, because the code tests FirstName, LastName and About
separately and never the concatenated full name.  This refutes the claimed
inclusion test. -/
theorem c1_counterexample :
    goContains (c1row.FirstName ++ " " ++ c1row.LastName) "b C" = true
    ∧ (filterData c1data "b C").elems = [] := by decide

/-- C1 amended: a record passes the filter stage iff the filter is empty or
is a case-sensitive substring of the first name, of the last name, or of the
biography (About); included records appear in source order, mapped to users
whose Name is the space-joined full name. -/
theorem c1_amended :
    ∀ (data : xmlData) (q : String),
      (filterData data q).elems
        = (data.Rows.filter (fun r => decide (q = "") || isRowMatching r q)).map mkUser
      ∧ ∀ u : User, u ∈ (filterData data q).elems ↔
          ∃ r ∈ data.Rows, (q = "" ∨ isRowMatching r q = true) ∧ u = mkUser r := by
  intro data q
  refine ⟨filterData_elems data q, ?_⟩
  intro u
  rw [filterData_elems]
  simp only [List.mem_map, List.mem_filter, Bool.or_eq_true, decide_eq_true_eq]
  constructor
  · rintro ⟨r, ⟨hr, hc⟩, he⟩
    exact ⟨r, hr, hc, he.symm⟩
  · rintro ⟨r, hr, hc, he⟩
    exact ⟨r, ⟨hr, hc⟩, he.symm⟩

/-!
Claim C4 — the paginate stage is claimed total; the code can panic.
-/

/-- C4 failing input evaluated in the model: on the empty slice (length 0,
capacity 0) with limit 2, the limit step executes data[:2], which is out of
bounds for capacity 0 and panics; the model returns none.  This is reachable
through the handler for any query matching no records together with any
limit of at least 2. -/
theorem c4_panic_eval : paginateData GoSlice.empty 0 2 = none := by decide

/-!
Claim C6 — parse error reporting in parseParams.
-/

/-- C6 counterexample: order_by fails to parse while offset and limit
succeed; the claim says the order_by failure is returned, but parseParams
returns no error at all, because the shared err variable is overwritten by
the later successful Atoi calls. -/
theorem c6_counterexample :
    atoiErr "invalid" = some "strconv.Atoi: parsing \"invalid\": invalid syntax"
    ∧ parseParams ⟨"q", "f", "invalid", "5", "10"⟩ = (⟨"q", "f", 0, 5, 10⟩, none) := by
  decide

/-- C6 amended: order_by, offset and limit are each parsed as integers and
reset to 0 on failure while parsing continues, and the error returned is the
result of the last parse — the limit parameter — so failures of order_by or
offset are masked whenever limit parses. -/
theorem c6_amended :
    ∀ raw : RawQuery,
      parseParams raw
        = (⟨raw.query, raw.order_field, atoiOr0 raw.order_by, atoiOr0 raw.offset,
            atoiOr0 raw.limit⟩, atoiErr raw.limit) :=
  parseParams_eq

/-!
Claim C8 — paginateData offset and limit rules.
-/

/-- 35-element slice (spare empty, so capacity 35) for the C8 evaluation. -/
def c8slice : GoSlice :=
  ⟨(List.range 35).map (fun i => ⟨(i : Int), "N", 30, "a", "g"⟩), []⟩

/-- C8 evaluation: the stated particulars hold — offset 5 with limit 10 on a
35-element slice yields elements 5 to 14, offset -1 behaves as offset 0, and
offset 35 with limit 1 yields the empty result — but at the failing input
offset 35 with limit 2 the code panics (the offset step substitutes the
empty slice literal of capacity 0 and the limit step slices it to 2) instead
of returning the empty result the claim describes. -/
theorem c8_panic_eval :
    (paginateData c8slice 5 10).map (fun s => s.elems.map User.ID)
      = some [5, 6, 7, 8, 9, 10, 11, 12, 13, 14]
    ∧ paginateData c8slice (-1) 10 = paginateData c8slice 0 10
    ∧ paginateData c8slice 35 1 = some GoSlice.empty
    ∧ paginateData c8slice 35 2 = none := by decide

/-!
Helper lemmas about the sort stage selection and the handler tail.
-/

/-- An order field outside the recognized set yields the fixed error value
with the literal message of server.go. -/
theorem sortData_invalid (s : GoSlice) (f : String) (ob : Int)
    (h1 : f ≠ "") (h2 : f ≠ "name") (h3 : f ≠ "id") (h4 : f ≠ "age") :
    sortData s f ob = Except.error "OrderField invalid" := by
  unfold sortData
  split <;> simp_all

/-- The handler tail is pagination mapped into a final body write. -/
theorem paginateAndSend_eq_map (w : ResponseState) (res : GoSlice) (params : queryDTO) :
    paginateAndSend w res params
      = (paginateData res params.offset params.limit).map
          (fun pg => sendResponse w pg.elems) := by
  cases h : paginateData res params.offset params.limit <;> simp [paginateAndSend, h]

/-- With limit 0 the limit step is skipped, so pagination cannot panic and
returns the offset stage result. -/
theorem paginateData_limit0 (s : GoSlice) (off : Int) :
    paginateData s off 0
      = some (if 0 < off then
                (if off < (s.elems.length : Int) then ⟨s.elems.drop off.toNat, s.spare⟩
                 else GoSlice.empty)
              else s) := by
  simp [paginateData]

/-!
Claim C2 — response to an unrecognized order field.
-/

/-- One-row dataset for the C2 counterexample. -/
def c2data : xmlData := ⟨[⟨1, "A", "B", 30, "x", "m"⟩]⟩

/-- C2 counterexample: for order_field random with an ascending direction
the handler answers 400 with the JSON envelope, but the message is the fixed
string OrderField invalid: it does not contain the offending field name and
is not the claimed literal OrderFeld random invalid (that wording is
produced client-side, outside the handler in src/). -/
theorem c2_counterexample :
    SearchServer "t" "t" (Except.ok c2data) ⟨"", "random", "-1", "0", "5"⟩
      = some ⟨some 400, [WriteEvent.text (jsonErrorBody "OrderField invalid")]⟩
    ∧ goContains (jsonErrorBody "OrderField invalid") "random" = false
    ∧ jsonErrorBody "OrderField invalid" ≠ "OrderFeld random invalid" := by
  refine ⟨by decide, by decide, by decide⟩

/-- C2 amended: for every request that parses cleanly, whose direction is
not as-is and whose order_field is outside the recognized set, the handler
responds 400 with the JSON envelope carrying the fixed message OrderField
invalid (the field name is not included), and neither sorting nor
pagination output appears in the response. -/
theorem c2_amended (tok : String) (data : xmlData) (raw : RawQuery) (p : queryDTO)
    (hp : parseParams raw = (p, none)) (hob : p.orderBy ≠ OrderByAsIs)
    (h1 : p.orderField ≠ "") (h2 : p.orderField ≠ "name")
    (h3 : p.orderField ≠ "id") (h4 : p.orderField ≠ "age") :
    SearchServer tok tok (Except.ok data) raw
      = some ⟨some 400, [WriteEvent.text (jsonErrorBody "OrderField invalid")]⟩ := by
  unfold SearchServer
  rw [if_neg (by simp)]
  rw [hp]
  simp only []
  rw [if_pos hob, sortData_invalid _ _ _ h1 h2 h3 h4]
  rfl

/-- C2 witness: concrete request hitting the amended theorem. -/
theorem c2_witness :
    (parseParams ⟨"", "random", "-1", "0", "5"⟩ = (⟨"", "random", -1, 0, 5⟩, none)
      ∧ (⟨"", "random", -1, 0, 5⟩ : queryDTO).orderBy ≠ OrderByAsIs
      ∧ (⟨"", "random", -1, 0, 5⟩ : queryDTO).orderField ≠ "")
    ∧ SearchServer "w" "w" (Except.ok ⟨[]⟩) ⟨"", "random", "-1", "0", "5"⟩
        = some ⟨some 400, [WriteEvent.text (jsonErrorBody "OrderField invalid")]⟩ :=
  ⟨⟨by decide, by decide, by decide⟩,
    c2_amended "w" ⟨[]⟩ ⟨"", "random", "-1", "0", "5"⟩ ⟨"", "random", -1, 0, 5⟩
      (by decide) (by decide) (by decide) (by decide) (by decide) (by decide)⟩

/-!
Claim C5 — the handler does not cap the limit.
-/

/-- 35-record dataset matching the spec description of the data source. -/
def c5dataset : xmlData :=
  ⟨(List.range 35).map (fun i => ⟨(i : Int), "A", "B", 20 + ((i : Int) % 9), "", "m"⟩)⟩

/-- C5 counterexample: with limit 100 against a 35-record source the handler
passes the limit to pagination uncapped; the filtered slice has capacity 64,
so the limit step panics (the model yields no response at all) instead of a
response with at most 25 records.  Had the limit been capped at 25, the very
same pagination would have succeeded. -/
theorem c5_counterexample :
    SearchServer "t" "t" (Except.ok c5dataset) ⟨"", "", "0", "0", "100"⟩ = none
    ∧ paginateData (filterData c5dataset "") 0 100 = none
    ∧ (paginateData (filterData c5dataset "") 0 25).isSome = true := by
  refine ⟨by decide, by decide, by decide⟩

/-- C5 amended: the Request Handler performs no limit capping: for every
cleanly parsed request with direction as-is and limit above 25, the response
is pagination applied to the filtered slice with the parsed limit unchanged
(the at-most-25-records behavior observed externally is enforced by the
client, which is outside src/). -/
theorem c5_amended (tok : String) (data : xmlData) (raw : RawQuery) (p : queryDTO)
    (hp : parseParams raw = (p, none)) (hob : p.orderBy = OrderByAsIs)
    (hlim : 25 < p.limit) :
    SearchServer tok tok (Except.ok data) raw
      = (paginateData (filterData data p.query) p.offset p.limit).map
          (fun pg => sendResponse ResponseState.empty pg.elems) := by
  unfold SearchServer
  rw [if_neg (by simp)]
  rw [hp]
  simp only []
  rw [if_neg (by simp [hob]), paginateAndSend_eq_map]

/-- C5 witness: concrete request with limit 100 hitting the amended
theorem. -/
theorem c5_witness :
    (parseParams ⟨"", "", "0", "0", "100"⟩ = (⟨"", "", 0, 0, 100⟩, none)
      ∧ (⟨"", "", 0, 0, 100⟩ : queryDTO).orderBy = OrderByAsIs
      ∧ (25 : Int) < 100)
    ∧ SearchServer "w" "w" (Except.ok ⟨[]⟩) ⟨"", "", "0", "0", "100"⟩
        = (paginateData (filterData ⟨[]⟩ "") 0 100).map
            (fun pg => sendResponse ResponseState.empty pg.elems) :=
  ⟨⟨by decide, by decide, by decide⟩,
    c5_amended "w" ⟨[]⟩ ⟨"", "", "0", "0", "100"⟩ ⟨"", "", 0, 0, 100⟩
      (by decide) (by decide) (by decide)⟩

/-!
Claim C9 — direction as-is skips the sort stage.
-/

/-- C9: whenever the parsed direction is as-is, the handler coincides with
the handler from which the sort stage has been removed, so the records
reaching pagination are exactly the filtered sequence in store order. -/
theorem c9_asis_skips_sort (tok reqTok : String) (load : Except String xmlData)
    (raw : RawQuery) (h : (parseParams raw).1.orderBy = OrderByAsIs) :
    SearchServer tok reqTok load raw = SearchServerNoSort tok reqTok load raw := by
  obtain ⟨p, perr, hpp⟩ : ∃ p perr, parseParams raw = (p, perr) := ⟨_, _, rfl⟩
  rw [hpp] at h
  simp only at h
  unfold SearchServer SearchServerNoSort
  by_cases ht : reqTok ≠ tok
  · rw [if_pos ht, if_pos ht]
  · rw [if_neg ht, if_neg ht]
    cases load with
    | error e => rfl
    | ok data =>
      rw [hpp]
      simp only []
      rw [if_neg (by simp [h])]

/-- C9 witness: a concrete as-is request on a one-row dataset. -/
theorem c9_witness :
    (parseParams ⟨"", "", "0", "1", "3"⟩).1.orderBy = OrderByAsIs
    ∧ SearchServer "t" "t" (Except.ok c2data) ⟨"", "", "0", "1", "3"⟩
        = SearchServerNoSort "t" "t" (Except.ok c2data) ⟨"", "", "0", "1", "3"⟩ :=
  ⟨by decide, c9_asis_skips_sort "t" "t" (Except.ok c2data) ⟨"", "", "0", "1", "3"⟩ (by decide)⟩

/-- Whether a body write is the marshalled result slice. -/
def WriteEvent.isResult : WriteEvent → Bool
  | WriteEvent.jsonUsers _ => true
  | WriteEvent.text _ => false

/-- Shared lemma: on a parse error the handler writes the 500 header and the
parse message first and then keeps going with the partial query; because the
limit field was the one that failed it is 0, so pagination cannot panic, and
the marshalled result is the last body write except when the sort stage
fails, where the handler stops after the sort error body. -/
theorem parseErr_response (tok : String) (data : xmlData) (raw : RawQuery)
    (p : queryDTO) (e : String) (hp : parseParams raw = (p, some e)) :
    ∃ resp : ResponseState,
      SearchServer tok tok (Except.ok data) raw = some resp
      ∧ resp.status = some 500
      ∧ resp.body.head? = some (WriteEvent.text (e ++ "\n"))
      ∧ ((p.orderBy = OrderByAsIs ∨ p.orderField = "" ∨ p.orderField = "name"
            ∨ p.orderField = "id" ∨ p.orderField = "age") →
          ∃ us : List User, resp.body.getLast? = some (WriteEvent.jsonUsers us)) := by
  have hpe := parseParams_eq raw
  rw [hp] at hpe
  injection hpe with hp1 hp2
  have hlim : p.limit = 0 := by
    rw [hp1]
    simp only [atoiOr0]
    cases hgo : goAtoi raw.limit with
    | ok v => simp [atoiErr, hgo] at hp2
    | error e2 => simp
  have hfin : ∀ s : GoSlice, ∃ resp : ResponseState,
      paginateAndSend ⟨some 500, [WriteEvent.text (e ++ "\n")]⟩ s p = some resp
      ∧ resp.status = some 500
      ∧ resp.body.head? = some (WriteEvent.text (e ++ "\n"))
      ∧ ∃ us : List User, resp.body.getLast? = some (WriteEvent.jsonUsers us) := by
    intro s
    rw [paginateAndSend_eq_map, hlim, paginateData_limit0]
    exact ⟨_, rfl, rfl, rfl, ⟨_, rfl⟩⟩
  unfold SearchServer
  rw [if_neg (by simp)]
  rw [hp]
  simp only []
  by_cases hob : p.orderBy ≠ OrderByAsIs
  · rw [if_pos hob]
    by_cases hf1 : p.orderField = ""
    · rw [hf1]
      simp only [sortData]
      obtain ⟨resp, h1, h2, h3, h4⟩ := hfin ⟨goSortSlice (lessName p.orderBy)
        (filterData data p.query).elems, (filterData data p.query).spare⟩
      exact ⟨resp, h1, h2, h3, fun _ => h4⟩
    · by_cases hf2 : p.orderField = "name"
      · rw [hf2]
        simp only [sortData]
        obtain ⟨resp, h1, h2, h3, h4⟩ := hfin ⟨goSortSlice (lessName p.orderBy)
          (filterData data p.query).elems, (filterData data p.query).spare⟩
        exact ⟨resp, h1, h2, h3, fun _ => h4⟩
      · by_cases hf3 : p.orderField = "id"
        · rw [hf3]
          simp only [sortData]
          obtain ⟨resp, h1, h2, h3, h4⟩ := hfin ⟨goSortSlice (lessID p.orderBy)
            (filterData data p.query).elems, (filterData data p.query).spare⟩
          exact ⟨resp, h1, h2, h3, fun _ => h4⟩
        · by_cases hf4 : p.orderField = "age"
          · rw [hf4]
            simp only [sortData]
            obtain ⟨resp, h1, h2, h3, h4⟩ := hfin ⟨goSortSlice (lessAge p.orderBy)
              (filterData data p.query).elems, (filterData data p.query).spare⟩
            exact ⟨resp, h1, h2, h3, fun _ => h4⟩
          · rw [sortData_invalid _ _ _ hf1 hf2 hf3 hf4]
            refine ⟨_, rfl, rfl, rfl, ?_⟩
            intro hrec
            rcases hrec with h | h | h | h | h
            · exact absurd h hob
            · exact absurd h hf1
            · exact absurd h hf2
            · exact absurd h hf3
            · exact absurd h hf4
  · rw [if_neg hob]
    obtain ⟨resp, h1, h2, h3, h4⟩ := hfin (filterData data p.query)
    exact ⟨resp, h1, h2, h3, fun _ => h4⟩

/-!
Claim C7 — parse errors do not terminate the handler.
-/

/-- One-row dataset for the C7 counterexample. -/
def c7data : xmlData := ⟨[⟨2, "C", "D", 25, "y", "f"⟩]⟩

/-- C7 counterexample: parse error (limit is not an integer) combined with a
failing sort stage: the handler writes the 500 parse error and then the sort
error body and returns — the pipeline result is never emitted, refuting the
claim that the result is still emitted for every parse-error request. -/
theorem c7_counterexample :
    SearchServer "t" "t" (Except.ok c7data) ⟨"", "random", "-1", "0", "x"⟩
      = some ⟨some 500,
          [WriteEvent.text "strconv.Atoi: parsing \"x\": invalid syntax\n",
           WriteEvent.text (jsonErrorBody "OrderField invalid")]⟩
    ∧ ([WriteEvent.text "strconv.Atoi: parsing \"x\": invalid syntax\n",
        WriteEvent.text (jsonErrorBody "OrderField invalid")].all
          (fun ev => ! ev.isResult)) = true := by
  refine ⟨by decide, by decide⟩

/-- C7 amended: on a parse error the handler sends the 500 status carrying
the parse message and does not terminate: it continues filtering, sorting
and paginating with the partial query (whose limit is 0) and still emits the
result as the last body write, except when the sort stage fails (direction
not as-is and unrecognized order_field), where it stops after the sort error
body. -/
theorem c7_amended (tok : String) (data : xmlData) (raw : RawQuery)
    (p : queryDTO) (e : String) (hp : parseParams raw = (p, some e)) :
    ∃ resp : ResponseState,
      SearchServer tok tok (Except.ok data) raw = some resp
      ∧ resp.status = some 500
      ∧ resp.body.head? = some (WriteEvent.text (e ++ "\n"))
      ∧ ((p.orderBy = OrderByAsIs ∨ p.orderField = "" ∨ p.orderField = "name"
            ∨ p.orderField = "id" ∨ p.orderField = "age") →
          ∃ us : List User, resp.body.getLast? = some (WriteEvent.jsonUsers us)) :=
  parseErr_response tok data raw p e hp

/-- C7 witness: a concrete request whose limit does not parse and whose sort
stage is skipped. -/
theorem c7_witness :
    parseParams ⟨"", "", "0", "0", "x"⟩
      = (⟨"", "", 0, 0, 0⟩, some "strconv.Atoi: parsing \"x\": invalid syntax")
    ∧ ∃ resp : ResponseState,
        SearchServer "t" "t" (Except.ok c7data) ⟨"", "", "0", "0", "x"⟩ = some resp
        ∧ resp.status = some 500
        ∧ resp.body.head?
            = some (WriteEvent.text ("strconv.Atoi: parsing \"x\": invalid syntax" ++ "\n"))
        ∧ (((⟨"", "", 0, 0, 0⟩ : queryDTO).orderBy = OrderByAsIs
              ∨ (⟨"", "", 0, 0, 0⟩ : queryDTO).orderField = ""
              ∨ (⟨"", "", 0, 0, 0⟩ : queryDTO).orderField = "name"
              ∨ (⟨"", "", 0, 0, 0⟩ : queryDTO).orderField = "id"
              ∨ (⟨"", "", 0, 0, 0⟩ : queryDTO).orderField = "age") →
            ∃ us : List User, resp.body.getLast? = some (WriteEvent.jsonUsers us)) :=
  ⟨by decide,
    c7_amended "t" c7data ⟨"", "", "0", "0", "x"⟩ ⟨"", "", 0, 0, 0⟩
      "strconv.Atoi: parsing \"x\": invalid syntax" (by decide)⟩

/-!
Claim C10 — absent or non-integer limit forces the parse-error path.
-/

/-- C10: whenever the raw limit parameter (the empty string when absent)
fails integer parsing, parseParams returns that error and the handler takes
the 500 parse-error path, whatever the other parameters are. -/
theorem c10_unparsed_limit (tok : String) (data : xmlData) (raw : RawQuery)
    (e : String) (hgo : goAtoi raw.limit = Except.error e) :
    (parseParams raw).2 = some e
    ∧ ∃ resp : ResponseState,
        SearchServer tok tok (Except.ok data) raw = some resp
        ∧ resp.status = some 500 := by
  have h2 : (parseParams raw).2 = some e := by
    rw [parseParams_eq]
    simp [atoiErr, hgo]
  refine ⟨h2, ?_⟩
  obtain ⟨p, perr, hpp⟩ : ∃ p perr, parseParams raw = (p, perr) := ⟨_, _, rfl⟩
  have hperr : perr = some e := by
    rw [hpp] at h2
    exact h2
  rw [hperr] at hpp
  obtain ⟨resp, h1, hst, _, _⟩ := parseErr_response tok data raw p e hpp
  exact ⟨resp, h1, hst⟩

/-- C10 witness: the request with no query parameters at all (every raw
parameter is the empty string, so every defaulted field is 0). -/
theorem c10_witness :
    goAtoi "" = Except.error "strconv.Atoi: parsing \"\": invalid syntax"
    ∧ ((parseParams ⟨"", "", "", "", ""⟩).2
          = some "strconv.Atoi: parsing \"\": invalid syntax"
        ∧ ∃ resp : ResponseState,
            SearchServer "t" "t" (Except.ok (⟨[]⟩ : xmlData)) ⟨"", "", "", "", ""⟩
              = some resp
            ∧ resp.status = some 500) :=
  ⟨rfl,
    c10_unparsed_limit "t" (⟨[]⟩ : xmlData) ⟨"", "", "", "", ""⟩
      "strconv.Atoi: parsing \"\": invalid syntax" rfl⟩

/-!
Claim C3 — behavior of the sort stage.  For a comparator that never reports
less (every direction other than ascending), Go pdqsort returns without
moving anything: small ranges run insertion sort, whose guards all fail, and
large ranges take the already-sorted early exit of partialInsertionSort
after choosePivot reports an increasing hint.  The lemmas below prove this
over the model for an arbitrary constantly-false comparator.
-/

/-- A comparator that never reports less (an abbreviation, so hypotheses of
this shape can be used directly as rewrite rules). -/
abbrev AllFalseLess (less : LessF) : Prop := ∀ (l : List User) (i j : Int), less l i j = false

/-- The insertion-sort inner loop never moves with a constantly-false
comparator. -/
theorem insInner_id (less : LessF) (h : AllFalseLess less) (fuel : Nat)
    (l : List User) (a j : Int) : insInner less fuel l a j = l := by
  cases fuel with
  | zero => rfl
  | succ n => simp [insInner, h]

/-- The insertion-sort outer loop is the identity with a constantly-false
comparator. -/
theorem insLoop_id (less : LessF) (h : AllFalseLess less) :
    ∀ (fuel : Nat) (l : List User) (a b i : Int), insLoop less fuel l a b i = l := by
  intro fuel
  induction fuel with
  | zero => intro l a b i; rfl
  | succ n ih => intro l a b i; simp [insLoop, insInner_id less h, ih]

/-- insertionSort is the identity with a constantly-false comparator. -/
theorem insertionSortGo_id (less : LessF) (h : AllFalseLess less)
    (l : List User) (a b : Int) : insertionSortGo less l a b = l := by
  simp [insertionSortGo, insLoop_id less h]

/-- order2 keeps its arguments and counts no inversion with a
constantly-false comparator. -/
theorem order2Go_id (less : LessF) (h : AllFalseLess less) (l : List User)
    (a b : Int) (s : Nat) : order2Go less l a b s = (a, b, s) := by
  simp [order2Go, h]

/-- median returns the middle argument and counts no inversion with a
constantly-false comparator. -/
theorem medianGo_id (less : LessF) (h : AllFalseLess less) (l : List User)
    (a b c : Int) (s : Nat) : medianGo less l a b c s = (b, s) := by
  simp [medianGo, order2Go_id less h]

/-- medianAdjacent returns its center with a constantly-false comparator. -/
theorem medianAdjacentGo_id (less : LessF) (h : AllFalseLess less) (l : List User)
    (a : Int) (s : Nat) : medianAdjacentGo less l a s = (a, s) := by
  simp [medianAdjacentGo, medianGo_id less h]

/-- choosePivot reports the increasing hint with a constantly-false
comparator (zero recorded inversions on every branch). -/
theorem choosePivotGo_inc (less : LessF) (h : AllFalseLess less) (l : List User)
    (a b : Int) : ∃ p, choosePivotGo less l a b = (p, SortHint.increasing) := by
  unfold choosePivotGo
  by_cases h8 : b - a ≥ 8
  · by_cases h50 : b - a ≥ 50
    · simp [h8, h50, medianAdjacentGo_id less h, medianGo_id less h]
    · simp [h8, h50, medianGo_id less h]
  · simp [h8]

/-- The partialInsertionSort scan reaches the end of the range with a
constantly-false comparator. -/
theorem pisScan_reach (less : LessF) (h : AllFalseLess less) :
    ∀ (fuel : Nat) (l : List User) (b i : Int), i ≤ b → (b - i).toNat ≤ fuel →
      pisScan less fuel l b i = b := by
  intro fuel
  induction fuel with
  | zero =>
    intro l b i hib hf
    have : i = b := by omega
    simpa [pisScan] using this
  | succ n ih =>
    intro l b i hib hf
    rw [pisScan]
    by_cases hlt : i < b
    · rw [if_pos ⟨hlt, by simp [h]⟩]
      exact ih l b (i+1) (by omega) (by omega)
    · have : i = b := by omega
      rw [if_neg (by simp [hlt])]
      exact this

/-- partialInsertionSort takes the already-sorted early exit, untouched,
with a constantly-false comparator. -/
theorem partialInsertionSortGo_true (less : LessF) (h : AllFalseLess less)
    (l : List User) (a b : Int) (hab : a + 1 ≤ b) :
    partialInsertionSortGo less l a b = (true, l) := by
  have hscan : pisScan less ((b - (a+1)).toNat + 1) l b (a+1) = b :=
    pisScan_reach less h _ l b (a+1) hab (by omega)
  have h5 : (5 : Nat) = 4 + 1 := rfl
  unfold partialInsertionSortGo
  rw [h5, pisLoop, hscan]
  simp

/-- The bit length of a positive number is positive. -/
theorem goBitsLen_ne_zero {n : Nat} (h : 0 < n) : goBitsLen n ≠ 0 := by
  have hne : n ≠ 0 := by omega
  obtain ⟨m, rfl⟩ := Nat.exists_eq_succ_of_ne_zero hne
  simp [goBitsLen, bitsLenAux]

/-- Go sort.Slice is the identity for a constantly-false comparator: for at
most 12 elements insertion sort never swaps, and beyond that the
already-sorted early exit fires before any partitioning. -/
theorem goSortSlice_id (less : LessF) (h : AllFalseLess less) (l : List User) :
    goSortSlice less l = l := by
  unfold goSortSlice
  rw [pdqsortRec]
  by_cases h12 : ((l.length : Int) - 0 ≤ 12)
  · rw [if_pos h12]
    exact insertionSortGo_id less h l 0 _
  · rw [if_neg h12]
    have hpos : 0 < l.length := by omega
    have hn : ¬ (((goBitsLen l.length : Nat) : Int) = 0) := by
      exact_mod_cast goBitsLen_ne_zero hpos
    rw [if_neg hn]
    obtain ⟨p, hp⟩ := choosePivotGo_inc less h l 0 (l.length : Int)
    have hpis := partialInsertionSortGo_true less h l 0 (l.length : Int) (by omega)
    simp [hp, hpis]

/-- The name comparator is constantly false off the ascending direction. -/
theorem lessName_false (ob : Int) (hob : ob ≠ OrderByAsc) :
    AllFalseLess (lessName ob) := by
  intro l i j
  simp [lessName, hob]

/-- The id comparator is constantly false off the ascending direction. -/
theorem lessID_false (ob : Int) (hob : ob ≠ OrderByAsc) :
    AllFalseLess (lessID ob) := by
  intro l i j
  simp [lessID, hob]

/-- The age comparator is constantly false off the ascending direction. -/
theorem lessAge_false (ob : Int) (hob : ob ≠ OrderByAsc) :
    AllFalseLess (lessAge ob) := by
  intro l i j
  simp [lessAge, hob]

/-- Input for the C3 counterexample: 13 users with repeated ages (13
elements exceed the 12-element insertion-sort cutoff of pdqsort, so the
partitioning machinery runs). -/
def c3input : List User :=
  [⟨0, "", 0, "", ""⟩, ⟨1, "", 2, "", ""⟩, ⟨2, "", 4, "", ""⟩, ⟨3, "", 1, "", ""⟩,
   ⟨4, "", 3, "", ""⟩, ⟨5, "", 0, "", ""⟩, ⟨6, "", 2, "", ""⟩, ⟨7, "", 4, "", ""⟩,
   ⟨8, "", 1, "", ""⟩, ⟨9, "", 3, "", ""⟩, ⟨10, "", 0, "", ""⟩, ⟨11, "", 2, "", ""⟩,
   ⟨12, "", 4, "", ""⟩]

/-- Output computed by the sort stage model on the C3 input. -/
def c3output : List User :=
  [⟨5, "", 0, "", ""⟩, ⟨10, "", 0, "", ""⟩, ⟨0, "", 0, "", ""⟩, ⟨8, "", 1, "", ""⟩,
   ⟨3, "", 1, "", ""⟩, ⟨6, "", 2, "", ""⟩, ⟨1, "", 2, "", ""⟩, ⟨11, "", 2, "", ""⟩,
   ⟨4, "", 3, "", ""⟩, ⟨9, "", 3, "", ""⟩, ⟨7, "", 4, "", ""⟩, ⟨2, "", 4, "", ""⟩,
   ⟨12, "", 4, "", ""⟩]

/-- C3 counterexample: ascending sort by age on 13 records is NOT stable —
users 0 and 5 have equal ages, user 0 precedes user 5 in the input, yet
user 5 precedes user 0 in the output, because sort.Slice (pdqsort) moves
tied elements across the pivot during partitioning.  This refutes the
claimed tie preservation. -/
theorem c3_counterexample :
    (sortData ⟨c3input, []⟩ "age" OrderByAsc).toOption = some ⟨c3output, []⟩
    ∧ c3input.findIdx (fun u => decide (u.ID = 0))
        < c3input.findIdx (fun u => decide (u.ID = 5))
    ∧ c3output.findIdx (fun u => decide (u.ID = 5))
        < c3output.findIdx (fun u => decide (u.ID = 0))
    ∧ (uget c3input 0).Age = (uget c3input 5).Age := by
  refine ⟨by decide, by decide, by decide, by decide⟩

/-- C3 amended: for every recognized sort field, a direction other than
ascending makes the comparator constantly false and sortData an
order-preserving no-op returning its input unchanged; with the ascending
direction each comparator is exactly strict less-than on the selected field.
Tie preservation under the ascending direction does NOT hold (sort.Slice is
not stable; see the counterexample). -/
theorem c3_amended (s : GoSlice) (f : String) (ob : Int)
    (hf : f = "" ∨ f = "name" ∨ f = "id" ∨ f = "age") (hob : ob ≠ OrderByAsc) :
    sortData s f ob = Except.ok s
    ∧ (∀ (l : List User) (i j : Int),
        lessName ob l i j = false ∧ lessID ob l i j = false ∧ lessAge ob l i j = false)
    ∧ (∀ (l : List User) (i j : Int),
        lessName OrderByAsc l i j = decide ((uget l i).Name < (uget l j).Name)
        ∧ lessID OrderByAsc l i j = decide ((uget l i).ID < (uget l j).ID)
        ∧ lessAge OrderByAsc l i j = decide ((uget l i).Age < (uget l j).Age)) := by
  refine ⟨?_, ?_, ?_⟩
  · rcases hf with hf | hf | hf | hf <;> subst hf <;>
      simp [sortData, goSortSlice_id _ (lessName_false ob hob),
        goSortSlice_id _ (lessID_false ob hob), goSortSlice_id _ (lessAge_false ob hob)]
  · intro l i j
    exact ⟨lessName_false ob hob l i j, lessID_false ob hob l i j,
      lessAge_false ob hob l i j⟩
  · intro l i j
    refine ⟨?_, ?_, ?_⟩ <;> simp [lessName, lessID, lessAge]

/-- Two-element slice for the C3 witness. -/
def c3wslice : GoSlice := ⟨[⟨1, "n", 20, "a", "g"⟩, ⟨2, "m", 19, "b", "h"⟩], []⟩

/-- C3 witness: the amended theorem applied to the age field with the
descending direction on a concrete two-element slice. -/
theorem c3_witness :
    (("age" = "" ∨ "age" = "name" ∨ "age" = "id" ∨ "age" = "age")
      ∧ OrderByDesc ≠ OrderByAsc)
    ∧ (sortData c3wslice "age" OrderByDesc = Except.ok c3wslice
       ∧ (∀ (l : List User) (i j : Int),
           lessName OrderByDesc l i j = false ∧ lessID OrderByDesc l i j = false
             ∧ lessAge OrderByDesc l i j = false)
       ∧ (∀ (l : List User) (i j : Int),
           lessName OrderByAsc l i j = decide ((uget l i).Name < (uget l j).Name)
           ∧ lessID OrderByAsc l i j = decide ((uget l i).ID < (uget l j).ID)
           ∧ lessAge OrderByAsc l i j = decide ((uget l i).Age < (uget l j).Age))) :=
  ⟨⟨by decide, by decide⟩,
    c3_amended c3wslice "age" OrderByDesc (by decide) (by decide)⟩

end SearchSrv
